import Mathlib

/-!
Shallow embedding of the ser-io crate (src/lib.rs): a reader/writer for the
SER binary container format.

Modelling conventions:
* A file, a memory map and a writer sink are byte sequences, `List Nat`,
  each element standing for one `u8` (so values below 256 in any list that
  came from a real file; the byte-assembly helpers reduce each element
  modulo 256, which is the identity on genuine `u8` values).
* Rust `String` fields of the header are represented by their UTF-8 byte
  sequences (`List Nat`).  `parse_string` in the source decodes a byte
  slice with `from_utf8(..).unwrap_or("")`; on bytes produced from a
  `String` this is the identity, which is what the byte-list model gives.
* `u32` arithmetic in the source wraps modulo 2^32 (release semantics) and
  `usize` arithmetic modulo 2^64; the wrap is written explicitly with `%`
  exactly where the source computes in those types.
* Fallible operations return `Except SerError`.
-/

/-- Bayer color-filter layouts, from `enum Bayer` in src/lib.rs.
`Unknown` carries the raw unrecognized numeric code. -/
inductive Bayer where
  | Mono
  | RGGB
  | GRBG
  | GBRG
  | BGGR
  | CYYM
  | YCMY
  | YMCY
  | MYYC
  | RGB
  | BGR
  | Unknown (code : Nat)
  deriving DecidableEq

/-- Pixel-data endianness, from `enum Endianness` in src/lib.rs. -/
inductive Endianness where
  | LittleEndian
  | BigEndian
  deriving DecidableEq

/-- SER header record, from `struct SerHeader` in src/lib.rs.  Text fields
are modelled as their UTF-8 byte sequences. -/
structure SerHeader where
  image_height : Nat
  image_width : Nat
  frame_count : Nat
  pixel_depth_per_plane : Nat
  endianness : Endianness
  bayer : Bayer
  observer : List Nat
  telescope : List Nat
  instrument : List Nat
  date_time : Nat
  date_time_utc : Nat
  deriving DecidableEq

/-- Constant `HEADER_SIZE` from src/lib.rs. -/
def HEADER_SIZE : Nat := 178

/-- UTF-8 bytes of the `MAGIC` signature string "LUCAM-RECORDER". -/
def MAGIC_BYTES : List Nat :=
  [76, 85, 67, 65, 77, 45, 82, 69, 67, 79, 82, 68, 69, 82]

/-- Method `SerHeader::bytes_per_pixel`: 2 when the pixel depth exceeds 8, else 1. -/
def SerHeader.bytes_per_pixel (h : SerHeader) : Nat :=
  if h.pixel_depth_per_plane > 8 then 2 else 1

/-- Method `SerHeader::image_frame_size`: the product
`bytes_per_pixel as u32 * image_width * image_height` computed in `u32`
arithmetic, hence reduced modulo 2^32. -/
def SerHeader.image_frame_size (h : SerHeader) : Nat :=
  h.bytes_per_pixel * h.image_width * h.image_height % 4294967296

/-- Method `SerHeader::image_data_bytes`: `image_frame_size * frame_count` computed
in `usize` (64-bit) arithmetic, hence reduced modulo 2^64. -/
def SerHeader.image_data_bytes (h : SerHeader) : Nat :=
  h.image_frame_size * h.frame_count % 18446744073709551616

/-- The slice `&buf[a..b]` of a byte sequence. -/
def byteSlice (l : List Nat) (a b : Nat) : List Nat :=
  (l.drop a).take (b - a)

/-- Function `parse_u32`: assemble a little-endian `u32` from the first four bytes of
a slice (each byte reduced modulo 256, the identity on `u8` values). -/
def parse_u32 (buf : List Nat) : Nat :=
  buf.getD 0 0 % 256 + 256 * (buf.getD 1 0 % 256) +
    65536 * (buf.getD 2 0 % 256) + 16777216 * (buf.getD 3 0 % 256)

/-- Function `parse_u64`: assemble a little-endian `u64` from the first eight bytes
of a slice. -/
def parse_u64 (buf : List Nat) : Nat :=
  buf.getD 0 0 % 256 + 256 * (buf.getD 1 0 % 256) +
    65536 * (buf.getD 2 0 % 256) + 16777216 * (buf.getD 3 0 % 256) +
    4294967296 * (buf.getD 4 0 % 256) + 1099511627776 * (buf.getD 5 0 % 256) +
    281474976710656 * (buf.getD 6 0 % 256) +
    72057594037927936 * (buf.getD 7 0 % 256)

/-- The bayer decode table from `SerFile::open` (the `match` on the raw
`u32` code). -/
def codeToBayer (c : Nat) : Bayer :=
  if c = 0 then .Mono
  else if c = 8 then .RGGB
  else if c = 9 then .GRBG
  else if c = 10 then .GBRG
  else if c = 11 then .BGGR
  else if c = 16 then .CYYM
  else if c = 17 then .YCMY
  else if c = 18 then .YMCY
  else if c = 19 then .MYYC
  else if c = 100 then .RGB
  else if c = 101 then .BGR
  else .Unknown c

/-- The bayer encode table from `SerWriter::new` (the `match` producing
`bayer_n`). -/
def bayerToCode : Bayer → Nat
  | .Mono => 0
  | .RGGB => 8
  | .GRBG => 9
  | .GBRG => 10
  | .BGGR => 11
  | .CYYM => 16
  | .YCMY => 17
  | .YMCY => 18
  | .MYYC => 19
  | .RGB => 100
  | .BGR => 101
  | .Unknown b => b

/-- Endianness decode from `SerFile::open`: 0 is little-endian, anything
else big-endian. -/
def codeToEndianness (c : Nat) : Endianness :=
  if c = 0 then .LittleEndian else .BigEndian

/-- Endianness encode from `SerWriter::new`. -/
def endiannessToCode : Endianness → Nat
  | .LittleEndian => 0
  | .BigEndian => 1

/-- Field extraction of `SerFile::open` applied to the 178 header bytes
(everything after the magic check): offsets 14..18 unused id, 18..22 bayer,
22..26 endianness, 26..30 width, 30..34 height, 34..38 depth, 38..42 frame
count, 42..82 observer, 82..122 instrument, 122..162 telescope, 162..170
date_time, 170..178 date_time_utc. -/
def decodeFields (hb : List Nat) : SerHeader :=
  { image_height := parse_u32 (byteSlice hb 30 34)
    image_width := parse_u32 (byteSlice hb 26 30)
    frame_count := parse_u32 (byteSlice hb 38 42)
    pixel_depth_per_plane := parse_u32 (byteSlice hb 34 38)
    endianness := codeToEndianness (parse_u32 (byteSlice hb 22 26))
    bayer := codeToBayer (parse_u32 (byteSlice hb 18 22))
    observer := byteSlice hb 42 82
    telescope := byteSlice hb 122 162
    instrument := byteSlice hb 82 122
    date_time := parse_u64 (byteSlice hb 162 170)
    date_time_utc := parse_u64 (byteSlice hb 170 178) }

/-- Header decoding as performed by `SerFile::open` on the first 178 bytes:
the magic check followed by field extraction. -/
def parseHeader (hb : List Nat) : Option SerHeader :=
  if byteSlice hb 0 14 = MAGIC_BYTES then some (decodeFields hb) else none

/-- Errors surfaced by the crate (the `ErrorKind::InvalidData` cases). -/
inductive SerError where
  | tooShort
  | badHeader
  | notEnoughForImages
  | invalidFrameIndex
  | sizeMismatch (got expected : Nat)
  deriving DecidableEq

/-- Struct `SerFile`: the memory map, the decoded header and the decoded
per-frame timestamps. -/
structure SerFile where
  mmap : List Nat
  header : SerHeader
  timestamps : List Nat
  deriving DecidableEq

/-- Method `SerFile::open` on the file's byte contents: length check, magic check,
field extraction, image-data length check, then the optional trailer.  The
trailer loop reproduces the source exactly: timestamp `i` is parsed from
`trailer[i..i + 8]`. -/
def openSer (bytes : List Nat) : Except SerError SerFile :=
  if bytes.length < HEADER_SIZE then .error .tooShort
  else
    let header_bytes := byteSlice bytes 0 HEADER_SIZE
    if byteSlice header_bytes 0 14 = MAGIC_BYTES then
      let header := decodeFields header_bytes
      if bytes.length < HEADER_SIZE + header.image_data_bytes then
        .error .notEnoughForImages
      else
        let trailer_offset := HEADER_SIZE + header.image_data_bytes
        let trailer_size := 8 * header.frame_count
        let timestamps :=
          if trailer_offset + trailer_size ≤ bytes.length then
            let trailer := byteSlice bytes trailer_offset (trailer_offset + trailer_size)
            (List.range header.frame_count).map fun i => parse_u64 (byteSlice trailer i (i + 8))
          else []
        .ok ⟨bytes, header, timestamps⟩
    else .error .badHeader

/-- Method `SerFile::read_frame`: bounds-check the index, then slice
`image_frame_size` bytes at offset `178 + i * image_frame_size`. -/
def read_frame (f : SerFile) (i : Nat) : Except SerError (List Nat) :=
  if i < f.header.frame_count then
    let offset := HEADER_SIZE + i * f.header.image_frame_size
    .ok (byteSlice f.mmap offset (offset + f.header.image_frame_size))
  else .error .invalidFrameIndex

/-- Little-endian byte encoding of a `u32` (what `write_u32` emits; a value
at or above 2^32 is truncated by the byte masks, matching the `as u32`
cast applied to `frame_count`). -/
def u32le (n : Nat) : List Nat :=
  [n % 256, n / 256 % 256, n / 65536 % 256, n / 16777216 % 256]

/-- Little-endian byte encoding of a `u64` (what `write_u64` emits). -/
def u64le (n : Nat) : List Nat :=
  [n % 256, n / 256 % 256, n / 65536 % 256, n / 16777216 % 256,
   n / 4294967296 % 256, n / 1099511627776 % 256,
   n / 281474976710656 % 256, n / 72057594037927936 % 256]

/-- The header bytes built by `SerWriter::new`: magic, zero unused id,
bayer code, endianness code, width, height, depth, frame count, the three
text fields written raw (no padding or truncation), then the two `u64`
timestamps. -/
def encodeHeader (h : SerHeader) : List Nat :=
  MAGIC_BYTES ++ u32le 0 ++ u32le (bayerToCode h.bayer) ++
    u32le (endiannessToCode h.endianness) ++ u32le h.image_width ++
    u32le h.image_height ++ u32le h.pixel_depth_per_plane ++
    u32le h.frame_count ++ h.observer ++ h.instrument ++ h.telescope ++
    u64le h.date_time ++ u64le h.date_time_utc

/-- Method `SerWriter::write_frame`: compare the frame length against the
header's `image_frame_size`; on a match append the bytes verbatim to the
sink, otherwise fail and leave the sink untouched. -/
def write_frame (h : SerHeader) (sink : List Nat) (frame : List Nat) :
    Except SerError (List Nat) :=
  if h.image_frame_size = frame.length then .ok (sink ++ frame)
  else .error (.sizeMismatch frame.length h.image_frame_size)

/-- Discriminator for failed results. -/
def isErr : Except SerError SerFile → Bool
  | .error _ => true
  | .ok _ => false

/-! Basic arithmetic and slicing lemmas. -/

/-- Reassembling the four bytes of a little-endian `u32` encoding yields the
value modulo 2^32. -/
lemma parse_u32_u32le (n : Nat) : parse_u32 (u32le n) = n % 4294967296 := by
  simp only [parse_u32, u32le, List.getD_cons_zero, List.getD_cons_succ]
  omega

/-- Reassembling the eight bytes of a little-endian `u64` encoding yields the
value modulo 2^64. -/
lemma parse_u64_u64le (n : Nat) : parse_u64 (u64le n) = n % 18446744073709551616 := by
  simp only [parse_u64, u64le, List.getD_cons_zero, List.getD_cons_succ]
  omega

/-- A parsed `u32` is below 2^32. -/
lemma parse_u32_lt (buf : List Nat) : parse_u32 buf < 4294967296 := by
  unfold parse_u32
  omega

/-- The frame size is below 2^32 (it is a `u32` value). -/
lemma image_frame_size_lt (h : SerHeader) : h.image_frame_size < 4294967296 :=
  Nat.mod_lt _ (by norm_num)

/-- The frame count of any decoded header is below 2^32. -/
lemma decodeFields_frame_count_lt (hb : List Nat) :
    (decodeFields hb).frame_count < 4294967296 :=
  parse_u32_lt _

/-- When the frame count fits in a `u32`, the `usize` product in
`image_data_bytes` does not wrap. -/
lemma image_data_bytes_eq (h : SerHeader) (hfc : h.frame_count < 4294967296) :
    h.image_data_bytes = h.image_frame_size * h.frame_count := by
  unfold SerHeader.image_data_bytes
  apply Nat.mod_eq_of_lt
  calc h.image_frame_size * h.frame_count ≤ 4294967295 * 4294967295 :=
        Nat.mul_le_mul (by have := image_frame_size_lt h; omega) (by omega)
    _ < 18446744073709551616 := by norm_num

/-! Extraction of each header field back out of an encoded header. -/

/-- The 42-byte numeric prefix of an encoded header reduces away, leaving
the three text fields and the two timestamps. -/
lemma encodeHeader_drop_42 (h : SerHeader) :
    (encodeHeader h).drop 42 =
      h.observer ++ h.instrument ++ h.telescope ++
        u64le h.date_time ++ u64le h.date_time_utc := rfl

/-- Dropping 82 bytes of an encoded header skips the numeric prefix and 40
further bytes. -/
lemma encodeHeader_drop_82 (h : SerHeader) :
    (encodeHeader h).drop 82 =
      (h.observer ++ h.instrument ++ h.telescope ++
        u64le h.date_time ++ u64le h.date_time_utc).drop 40 := rfl

/-- Dropping 122 bytes of an encoded header skips the numeric prefix and 80
further bytes. -/
lemma encodeHeader_drop_122 (h : SerHeader) :
    (encodeHeader h).drop 122 =
      (h.observer ++ h.instrument ++ h.telescope ++
        u64le h.date_time ++ u64le h.date_time_utc).drop 80 := rfl

/-- Dropping 162 bytes of an encoded header skips the numeric prefix and 120
further bytes. -/
lemma encodeHeader_drop_162 (h : SerHeader) :
    (encodeHeader h).drop 162 =
      (h.observer ++ h.instrument ++ h.telescope ++
        u64le h.date_time ++ u64le h.date_time_utc).drop 120 := rfl

/-- Dropping 170 bytes of an encoded header skips the numeric prefix and 128
further bytes. -/
lemma encodeHeader_drop_170 (h : SerHeader) :
    (encodeHeader h).drop 170 =
      (h.observer ++ h.instrument ++ h.telescope ++
        u64le h.date_time ++ u64le h.date_time_utc).drop 128 := rfl

/-- The observer slot of an encoded header holds the observer bytes when
they have the nominal width 40. -/
lemma encodeHeader_observer (h : SerHeader) (ho : h.observer.length = 40) :
    byteSlice (encodeHeader h) 42 82 = h.observer := by
  show ((encodeHeader h).drop 42).take 40 = h.observer
  rw [encodeHeader_drop_42]
  simp only [List.append_assoc]
  exact List.take_left' ho

/-- The instrument slot of an encoded header holds the instrument bytes
when observer and instrument have the nominal width 40. -/
lemma encodeHeader_instrument (h : SerHeader) (ho : h.observer.length = 40)
    (hi : h.instrument.length = 40) :
    byteSlice (encodeHeader h) 82 122 = h.instrument := by
  show ((encodeHeader h).drop 82).take 40 = h.instrument
  rw [encodeHeader_drop_82]
  simp only [List.append_assoc]
  rw [List.drop_left' ho]
  exact List.take_left' hi

/-- The telescope slot of an encoded header holds the telescope bytes when
the three text fields have the nominal width 40. -/
lemma encodeHeader_telescope (h : SerHeader) (ho : h.observer.length = 40)
    (hi : h.instrument.length = 40) (ht : h.telescope.length = 40) :
    byteSlice (encodeHeader h) 122 162 = h.telescope := by
  show ((encodeHeader h).drop 122).take 40 = h.telescope
  rw [encodeHeader_drop_122]
  simp only [List.append_assoc]
  rw [show (80 : Nat) = 40 + 40 from rfl, ← List.drop_drop,
      List.drop_left' ho, List.drop_left' hi]
  exact List.take_left' ht

/-- The date_time slot of an encoded header holds the `u64` encoding of
`date_time` when the three text fields have the nominal width 40. -/
lemma encodeHeader_date_time (h : SerHeader) (ho : h.observer.length = 40)
    (hi : h.instrument.length = 40) (ht : h.telescope.length = 40) :
    byteSlice (encodeHeader h) 162 170 = u64le h.date_time := by
  show ((encodeHeader h).drop 162).take 8 = u64le h.date_time
  rw [encodeHeader_drop_162]
  simp only [List.append_assoc]
  rw [show (120 : Nat) = 40 + (40 + 40) from rfl, ← List.drop_drop, ← List.drop_drop,
      List.drop_left' ho, List.drop_left' hi, List.drop_left' ht]
  exact List.take_left' rfl

/-- The date_time_utc slot of an encoded header holds the `u64` encoding of
`date_time_utc` when the three text fields have the nominal width 40. -/
lemma encodeHeader_date_time_utc (h : SerHeader) (ho : h.observer.length = 40)
    (hi : h.instrument.length = 40) (ht : h.telescope.length = 40) :
    byteSlice (encodeHeader h) 170 178 = u64le h.date_time_utc := by
  show ((encodeHeader h).drop 170).take 8 = u64le h.date_time_utc
  rw [encodeHeader_drop_170]
  simp only [List.append_assoc]
  rw [show (128 : Nat) = 40 + (40 + (40 + 8)) from rfl, ← List.drop_drop,
      ← List.drop_drop, ← List.drop_drop,
      List.drop_left' ho, List.drop_left' hi, List.drop_left' ht,
      List.drop_left' (show (u64le h.date_time).length = 8 from rfl)]
  rw [show (8 : Nat) = (u64le h.date_time_utc).length from rfl, List.take_length]

set_option maxHeartbeats 1600000 in
/-- Decoding an encoded header recovers the record when every numeric field
fits its wire width, the bayer variant is a fixed point of decode-after-
encode, and the three text fields have the nominal width 40. -/
lemma decodeFields_encodeHeader (h : SerHeader)
    (hw : h.image_width < 4294967296) (hh : h.image_height < 4294967296)
    (hd : h.pixel_depth_per_plane < 4294967296) (hf : h.frame_count < 4294967296)
    (ht1 : h.date_time < 18446744073709551616)
    (ht2 : h.date_time_utc < 18446744073709551616)
    (hbc : bayerToCode h.bayer < 4294967296)
    (hfix : codeToBayer (bayerToCode h.bayer) = h.bayer)
    (ho : h.observer.length = 40) (hi : h.instrument.length = 40)
    (hte : h.telescope.length = 40) :
    decodeFields (encodeHeader h) = h := by
  have eh : parse_u32 (byteSlice (encodeHeader h) 30 34) = h.image_height := by
    rw [show byteSlice (encodeHeader h) 30 34 = u32le h.image_height from rfl,
        parse_u32_u32le, Nat.mod_eq_of_lt hh]
  have ew : parse_u32 (byteSlice (encodeHeader h) 26 30) = h.image_width := by
    rw [show byteSlice (encodeHeader h) 26 30 = u32le h.image_width from rfl,
        parse_u32_u32le, Nat.mod_eq_of_lt hw]
  have ef : parse_u32 (byteSlice (encodeHeader h) 38 42) = h.frame_count := by
    rw [show byteSlice (encodeHeader h) 38 42 = u32le h.frame_count from rfl,
        parse_u32_u32le, Nat.mod_eq_of_lt hf]
  have ed : parse_u32 (byteSlice (encodeHeader h) 34 38) = h.pixel_depth_per_plane := by
    rw [show byteSlice (encodeHeader h) 34 38 = u32le h.pixel_depth_per_plane from rfl,
        parse_u32_u32le, Nat.mod_eq_of_lt hd]
  have ee : codeToEndianness (parse_u32 (byteSlice (encodeHeader h) 22 26)) =
      h.endianness := by
    rw [show byteSlice (encodeHeader h) 22 26 = u32le (endiannessToCode h.endianness)
          from rfl, parse_u32_u32le]
    cases h.endianness <;> rfl
  have eb : codeToBayer (parse_u32 (byteSlice (encodeHeader h) 18 22)) = h.bayer := by
    rw [show byteSlice (encodeHeader h) 18 22 = u32le (bayerToCode h.bayer) from rfl,
        parse_u32_u32le, Nat.mod_eq_of_lt hbc, hfix]
  have et1 : parse_u64 (byteSlice (encodeHeader h) 162 170) = h.date_time := by
    rw [encodeHeader_date_time h ho hi hte, parse_u64_u64le, Nat.mod_eq_of_lt ht1]
  have et2 : parse_u64 (byteSlice (encodeHeader h) 170 178) = h.date_time_utc := by
    rw [encodeHeader_date_time_utc h ho hi hte, parse_u64_u64le, Nat.mod_eq_of_lt ht2]
  unfold decodeFields
  rw [eh, ew, ef, ed, ee, eb, et1, et2, encodeHeader_observer h ho,
      encodeHeader_instrument h ho hi, encodeHeader_telescope h ho hi hte]

/-- Inversion of a successful `openSer`: the mapped bytes, the decoded
header, the two length checks that must have passed, and the trailer
computation. -/
lemma openSer_ok_inv {bytes : List Nat} {f : SerFile} (hok : openSer bytes = .ok f) :
    f.mmap = bytes ∧
    f.header = decodeFields (byteSlice bytes 0 178) ∧
    178 ≤ bytes.length ∧
    178 + f.header.image_data_bytes ≤ bytes.length ∧
    f.timestamps =
      (if 178 + f.header.image_data_bytes + 8 * f.header.frame_count ≤ bytes.length then
        (List.range f.header.frame_count).map fun i =>
          parse_u64 (byteSlice (byteSlice bytes (178 + f.header.image_data_bytes)
            (178 + f.header.image_data_bytes + 8 * f.header.frame_count)) i (i + 8))
      else []) := by
  unfold openSer at hok
  simp only [HEADER_SIZE] at hok
  split at hok
  · exact absurd hok (by simp)
  next h1 =>
    split at hok
    next hmagic =>
      split at hok
      next h2 => exact absurd hok (by simp)
      next h2 =>
        injection hok with hok
        subst hok
        refine ⟨rfl, rfl, by omega, ?_, rfl⟩
        show 178 + (decodeFields (byteSlice bytes 0 178)).image_data_bytes ≤ bytes.length
        omega
    · exact absurd hok (by simp)

/-! Concrete inputs used by counterexamples and witnesses. -/

/-- Sample header: 2x2 mono frames of depth 8, one frame, 40-byte text
fields. -/
def sampleHeader : SerHeader :=
  { image_height := 2, image_width := 2, frame_count := 1,
    pixel_depth_per_plane := 8, endianness := .LittleEndian, bayer := .Mono,
    observer := List.replicate 40 65, telescope := List.replicate 40 66,
    instrument := List.replicate 40 67, date_time := 11, date_time_utc := 12 }

/-- Sample header with 16-bit pixels. -/
def sampleHeader16 : SerHeader :=
  { sampleHeader with pixel_depth_per_plane := 16 }

/-- A 182-byte file: the sample header followed by one 4-byte frame and no
trailer. -/
def sampleFile : List Nat := encodeHeader sampleHeader ++ [5, 6, 7, 8]

/-- The handle `openSer` produces for `sampleFile`. -/
def sampleSer : SerFile := ⟨sampleFile, sampleHeader, []⟩

/-- Header declaring two 1-byte frames of depth 8. -/
def hdrTiny : SerHeader :=
  { image_height := 1, image_width := 1, frame_count := 2,
    pixel_depth_per_plane := 8, endianness := .LittleEndian, bayer := .Mono,
    observer := List.replicate 40 0, telescope := List.replicate 40 0,
    instrument := List.replicate 40 0, date_time := 0, date_time_utc := 0 }

/-- A 196-byte file: `hdrTiny`, two image bytes, then a 16-byte trailer
whose consecutive `u64` values are 1 and 2. -/
def fileWithTrailer : List Nat :=
  encodeHeader hdrTiny ++ [0, 0] ++ u64le 1 ++ u64le 2

/-- Header whose text fields are empty. -/
def hdrNoText : SerHeader :=
  { sampleHeader with observer := [], telescope := [], instrument := [] }

/-- Header carrying the escape bayer variant with a recognized code. -/
def hdrUnknown8 : SerHeader :=
  { sampleHeader with bayer := .Unknown 8 }

/-- Header with width and height 2^16, whose exact frame size 2^32
overflows `u32`. -/
def hdrWide : SerHeader :=
  { sampleHeader with image_width := 65536, image_height := 65536 }

/-! Claim theorems. -/

/-- Claim C1 (code evaluation at the failing input): on a 196-byte file
whose trailer stores the consecutive little-endian u64 timestamps 1 and 2,
open returns timestamps [1, 2^57]: the source parses timestamp i from the
8 bytes at trailer offset i instead of 8*i, so frame 1 gets the overlapped
window [0,0,0,0,0,0,0,2] = 2*2^56 rather than the stored value 2. -/
theorem open_trailer_overlapping_windows :
    openSer fileWithTrailer = .ok ⟨fileWithTrailer, hdrTiny, [1, 144115188075855872]⟩ := by
  set_option maxRecDepth 8000 in rfl

/-- Claim C2, counterexample: for a header record whose text fields are
empty the encoder emits 58 bytes, not 178, so the internal assertion that
the encoded buffer has length 178 fails. -/
theorem encodeHeader_not_178_on_short_text : (encodeHeader hdrNoText).length ≠ 178 := by
  decide

/-- Claim C2, amended: the encoded header always has length 58 plus the
combined byte length of the three text fields, and it is exactly 178 (the
assertion holds) precisely when those lengths sum to 120 — in particular
when each has the nominal width 40. -/
theorem encodeHeader_length_spec (h : SerHeader) :
    (encodeHeader h).length =
      58 + (h.observer.length + h.instrument.length + h.telescope.length) ∧
    ((encodeHeader h).length = 178 ↔
      h.observer.length + h.instrument.length + h.telescope.length = 120) := by
  have e : (encodeHeader h).length =
      58 + (h.observer.length + h.instrument.length + h.telescope.length) := by
    simp [encodeHeader, MAGIC_BYTES, u32le, u64le]
    omega
  exact ⟨e, by omega⟩

/-- Claim C5: open fails (with a structural error) exactly when the file
is shorter than 178 bytes, or its first 14 bytes are not the signature
"LUCAM-RECORDER", or the file is shorter than 178 plus the image data
bytes computed from the decoded header. -/
theorem openSer_fails_iff (bytes : List Nat) :
    isErr (openSer bytes) = true ↔
      (bytes.length < 178 ∨ byteSlice bytes 0 14 ≠ MAGIC_BYTES ∨
       bytes.length < 178 + (decodeFields (byteSlice bytes 0 178)).image_data_bytes) := by
  have hsub : byteSlice (byteSlice bytes 0 178) 0 14 = byteSlice bytes 0 14 := by
    simp [byteSlice, List.take_take]
  by_cases h1 : bytes.length < 178
  · simp [openSer, isErr, HEADER_SIZE, h1]
  · by_cases h2 : byteSlice bytes 0 14 = MAGIC_BYTES
    · by_cases h3 : bytes.length <
          178 + (decodeFields (byteSlice bytes 0 178)).image_data_bytes
      · simp [openSer, isErr, HEADER_SIZE, h1, h2, h3, hsub]
      · simp [openSer, isErr, HEADER_SIZE, h1, h2, h3, hsub]
    · simp [openSer, isErr, HEADER_SIZE, h1, h2, hsub]

/-- Claim C6: a frame write succeeds and appends the bytes verbatim to the
sink exactly when the frame length equals the header's image_frame_size;
otherwise it fails with a size-mismatch error carrying the two sizes and
leaves the sink unchanged (the failed call produces no new sink state). -/
theorem write_frame_spec (h : SerHeader) (sink frame : List Nat) :
    (frame.length = h.image_frame_size →
      write_frame h sink frame = .ok (sink ++ frame)) ∧
    (frame.length ≠ h.image_frame_size →
      write_frame h sink frame = .error (.sizeMismatch frame.length h.image_frame_size)) := by
  constructor
  · intro he
    unfold write_frame
    rw [if_pos he.symm]
  · intro hne
    unfold write_frame
    rw [if_neg fun q => hne q.symm]

/-- Claim C6, witness: with the sample header (frame size 4), writing 4
bytes appends them to the sink and writing 2 bytes fails with the
size-mismatch error. -/
theorem write_frame_spec_witness :
    write_frame sampleHeader [0] [9, 9, 9, 9] = .ok [0, 9, 9, 9, 9] ∧
    write_frame sampleHeader [0] [9, 9] = .error (.sizeMismatch 2 4) := by
  constructor
  · exact ((write_frame_spec sampleHeader [0] [9, 9, 9, 9]).1 (by decide)).trans (by rfl)
  · exact ((write_frame_spec sampleHeader [0] [9, 9]).2 (by decide)).trans (by rfl)

/-- Claim C7, counterexample: for width = height = 2^16 and depth 8 the
exact product bytes_per_pixel * width * height is 2^32, but the computed
image_frame_size is 0 because the source multiplies in u32. -/
theorem image_frame_size_wraps :
    hdrWide.image_frame_size = 0 ∧
    hdrWide.bytes_per_pixel * hdrWide.image_width * hdrWide.image_height = 4294967296 ∧
    hdrWide.image_frame_size ≠
      hdrWide.bytes_per_pixel * hdrWide.image_width * hdrWide.image_height := by
  refine ⟨rfl, rfl, by decide⟩

/-- Claim C7, amended: bytes_per_pixel is 2 for depth above 8 and 1
otherwise; image_frame_size equals the exact product bytes_per_pixel *
width * height whenever that product is below 2^32 (it is the product
modulo 2^32 in general), and image_data_bytes equals the exact product
image_frame_size * frame_count whenever that is below 2^64. -/
theorem derived_sizes_spec (h : SerHeader) :
    (8 < h.pixel_depth_per_plane → h.bytes_per_pixel = 2) ∧
    (h.pixel_depth_per_plane ≤ 8 → h.bytes_per_pixel = 1) ∧
    (h.bytes_per_pixel * h.image_width * h.image_height < 4294967296 →
      h.image_frame_size = h.bytes_per_pixel * h.image_width * h.image_height) ∧
    (h.image_frame_size * h.frame_count < 18446744073709551616 →
      h.image_data_bytes = h.image_frame_size * h.frame_count) := by
  refine ⟨?_, ?_, ?_, ?_⟩
  · intro hd
    unfold SerHeader.bytes_per_pixel
    rw [if_pos hd]
  · intro hd
    unfold SerHeader.bytes_per_pixel
    rw [if_neg (by omega)]
  · intro hlt
    exact Nat.mod_eq_of_lt hlt
  · intro hlt
    exact Nat.mod_eq_of_lt hlt

/-- Claim C7, witness: at the sample headers, depth 8 gives one byte per
pixel, depth 16 gives two, and the 2x2 depth-8 header has frame size 4 and
image data bytes 4. -/
theorem derived_sizes_spec_witness :
    sampleHeader.bytes_per_pixel = 1 ∧ sampleHeader16.bytes_per_pixel = 2 ∧
    sampleHeader.image_frame_size = 4 ∧ sampleHeader.image_data_bytes = 4 := by
  refine ⟨(derived_sizes_spec sampleHeader).2.1 (by decide),
          (derived_sizes_spec sampleHeader16).1 (by decide),
          ((derived_sizes_spec sampleHeader).2.2.1 (by decide)).trans (by rfl),
          ((derived_sizes_spec sampleHeader).2.2.2 (by decide)).trans (by rfl)⟩

/-- Any code outside the fixed lookup table decodes to the escape
variant. -/
lemma codeToBayer_default (c : Nat)
    (hc : c ∉ ([0, 8, 9, 10, 11, 16, 17, 18, 19, 100, 101] : List Nat)) :
    codeToBayer c = .Unknown c := by
  simp only [List.mem_cons, List.not_mem_nil, or_false] at hc
  push_neg at hc
  obtain ⟨h0, h8, h9, h10, h11, h16, h17, h18, h19, h100, h101⟩ := hc
  simp [codeToBayer, h0, h8, h9, h10, h11, h16, h17, h18, h19, h100, h101]

/-- Claim C9: the bayer decode table maps each listed code to its variant
and every other value to the escape variant carrying that value, and
re-encoding any decoded code gives the code back. -/
theorem bayer_code_table :
    (codeToBayer 0 = .Mono ∧ codeToBayer 8 = .RGGB ∧ codeToBayer 9 = .GRBG ∧
     codeToBayer 10 = .GBRG ∧ codeToBayer 11 = .BGGR ∧ codeToBayer 16 = .CYYM ∧
     codeToBayer 17 = .YCMY ∧ codeToBayer 18 = .YMCY ∧ codeToBayer 19 = .MYYC ∧
     codeToBayer 100 = .RGB ∧ codeToBayer 101 = .BGR) ∧
    (∀ c : Nat, c ∉ ([0, 8, 9, 10, 11, 16, 17, 18, 19, 100, 101] : List Nat) →
      codeToBayer c = .Unknown c) ∧
    (∀ c : Nat, bayerToCode (codeToBayer c) = c) := by
  refine ⟨by decide, codeToBayer_default, ?_⟩
  intro c
  by_cases hc : c ∈ ([0, 8, 9, 10, 11, 16, 17, 18, 19, 100, 101] : List Nat)
  · simp only [List.mem_cons, List.not_mem_nil, or_false] at hc
    rcases hc with rfl | rfl | rfl | rfl | rfl | rfl | rfl | rfl | rfl | rfl | rfl <;> rfl
  · rw [codeToBayer_default c hc]
    rfl

/-- Claim C9, witness: the unrecognized code 255 decodes to the escape
variant carrying 255. -/
theorem bayer_code_table_witness : codeToBayer 255 = Bayer.Unknown 255 :=
  bayer_code_table.2.1 255 (by decide)

/-- Claim C3, counterexample: the record carrying the escape bayer variant
with the recognized code 8 does not round-trip: decode returns the RGGB
variant instead. -/
theorem roundtrip_bayer_unknown8 :
    hdrUnknown8.bayer = Bayer.Unknown 8 ∧
    (parseHeader (encodeHeader hdrUnknown8)).map SerHeader.bayer = some Bayer.RGGB := by
  exact ⟨rfl, by rfl⟩

/-- Claim C3 (amended): encoding a header and decoding the 178 bytes
recovers the record exactly, provided the numeric fields fit their wire
widths (u32 fields and the frame count below 2^32, the u64 timestamps
below 2^64), the bayer variant is left fixed by decode-after-encode (it is
not the escape variant carrying a recognized code), and each text field
has byte length exactly 40. -/
theorem parseHeader_encodeHeader_roundtrip (h : SerHeader)
    (hw : h.image_width < 4294967296) (hh : h.image_height < 4294967296)
    (hd : h.pixel_depth_per_plane < 4294967296) (hf : h.frame_count < 4294967296)
    (ht1 : h.date_time < 18446744073709551616)
    (ht2 : h.date_time_utc < 18446744073709551616)
    (hbc : bayerToCode h.bayer < 4294967296)
    (hfix : codeToBayer (bayerToCode h.bayer) = h.bayer)
    (ho : h.observer.length = 40) (hi : h.instrument.length = 40)
    (hte : h.telescope.length = 40) :
    parseHeader (encodeHeader h) = some h := by
  unfold parseHeader
  rw [if_pos (show byteSlice (encodeHeader h) 0 14 = MAGIC_BYTES from rfl),
      decodeFields_encodeHeader h hw hh hd hf ht1 ht2 hbc hfix ho hi hte]

/-- Claim C3, witness: the sample header round-trips exactly. -/
theorem parseHeader_encodeHeader_roundtrip_witness :
    parseHeader (encodeHeader sampleHeader) = some sampleHeader :=
  parseHeader_encodeHeader_roundtrip sampleHeader (by decide) (by decide) (by decide)
    (by decide) (by decide) (by decide) (by decide) (by decide) (by decide) (by decide)
    (by decide)

/-- From a successful open, every valid frame index yields a slice that
ends within the mapped bytes: open checked the file length against
178 + image_frame_size * frame_count with the same arithmetic. -/
lemma open_frame_bound {bytes : List Nat} {f : SerFile}
    (hok : openSer bytes = .ok f) {i : Nat} (hi : i < f.header.frame_count) :
    178 + i * f.header.image_frame_size + f.header.image_frame_size ≤ f.mmap.length := by
  obtain ⟨hm, hh, -, hlen, -⟩ := openSer_ok_inv hok
  have hfc : f.header.frame_count < 4294967296 := by
    rw [hh]
    exact decodeFields_frame_count_lt _
  have hidb : f.header.image_data_bytes =
      f.header.image_frame_size * f.header.frame_count :=
    image_data_bytes_eq _ hfc
  have h1 : (i + 1) * f.header.image_frame_size ≤
      f.header.frame_count * f.header.image_frame_size :=
    Nat.mul_le_mul (Nat.succ_le_of_lt hi) (Nat.le_refl _)
  rw [Nat.succ_mul] at h1
  rw [Nat.mul_comm] at hidb
  rw [hm]
  omega

/-- Claim C4: after a successful open, read_frame at an index below the
frame count returns exactly the image_frame_size bytes at offset
178 + i * image_frame_size of the mapped file, and at any index at or
above the frame count it returns the invalid-index error. -/
theorem read_frame_ok_or_invalid (bytes : List Nat) (f : SerFile)
    (hok : openSer bytes = .ok f) (i : Nat) :
    (i < f.header.frame_count →
      read_frame f i = .ok (byteSlice f.mmap (178 + i * f.header.image_frame_size)
          (178 + i * f.header.image_frame_size + f.header.image_frame_size)) ∧
      (byteSlice f.mmap (178 + i * f.header.image_frame_size)
          (178 + i * f.header.image_frame_size + f.header.image_frame_size)).length =
        f.header.image_frame_size) ∧
    (f.header.frame_count ≤ i → read_frame f i = .error .invalidFrameIndex) := by
  constructor
  · intro hi
    have hb := open_frame_bound hok hi
    constructor
    · unfold read_frame
      rw [if_pos hi]
      rfl
    · simp only [byteSlice, List.length_take, List.length_drop]
      omega
  · intro hge
    unfold read_frame
    rw [if_neg (by omega)]

/-- Claim C4, witness: on the opened 182-byte sample file, frame 0 is the
4-byte slice at offset 178 and frame 1 is an invalid index. -/
theorem read_frame_ok_or_invalid_witness :
    read_frame sampleSer 0 = .ok (byteSlice sampleSer.mmap 178 182) ∧
    (byteSlice sampleSer.mmap 178 182).length = sampleSer.header.image_frame_size ∧
    read_frame sampleSer 1 = .error .invalidFrameIndex := by
  have hok : openSer sampleFile = .ok sampleSer := by
    set_option maxRecDepth 8000 in rfl
  refine ⟨?_, ?_, ?_⟩
  · exact (((read_frame_ok_or_invalid sampleFile sampleSer hok 0).1 (by decide)).1).trans
      (by rfl)
  · exact ((read_frame_ok_or_invalid sampleFile sampleSer hok 0).1 (by decide)).2
  · exact (read_frame_ok_or_invalid sampleFile sampleSer hok 1).2 (by decide)

/-- Claim C8: after a successful open the timestamps are empty when the
file has fewer than 8 * frame_count bytes after the image data, have
length exactly frame_count otherwise, and in every case are either empty
or of length frame_count. -/
theorem timestamps_empty_or_full (bytes : List Nat) (f : SerFile)
    (hok : openSer bytes = .ok f) :
    (bytes.length < 178 + f.header.image_data_bytes + 8 * f.header.frame_count →
      f.timestamps = []) ∧
    (178 + f.header.image_data_bytes + 8 * f.header.frame_count ≤ bytes.length →
      f.timestamps.length = f.header.frame_count) ∧
    (f.timestamps = [] ∨ f.timestamps.length = f.header.frame_count) := by
  obtain ⟨-, -, -, -, hts⟩ := openSer_ok_inv hok
  have he : bytes.length < 178 + f.header.image_data_bytes + 8 * f.header.frame_count →
      f.timestamps = [] := by
    intro hlt
    rw [hts, if_neg (by omega)]
  have hf : 178 + f.header.image_data_bytes + 8 * f.header.frame_count ≤ bytes.length →
      f.timestamps.length = f.header.frame_count := by
    intro hle
    rw [hts, if_pos hle]
    simp
  refine ⟨he, hf, ?_⟩
  by_cases hc : 178 + f.header.image_data_bytes + 8 * f.header.frame_count ≤ bytes.length
  · exact Or.inr (hf hc)
  · exact Or.inl (he (by omega))

/-- Claim C8, witness: the opened 182-byte sample file (no trailer bytes)
has empty timestamps, satisfying the invariant. -/
theorem timestamps_empty_or_full_witness :
    sampleSer.timestamps = [] ∧
    (sampleSer.timestamps = [] ∨
      sampleSer.timestamps.length = sampleSer.header.frame_count) := by
  have hok : openSer sampleFile = .ok sampleSer := by
    set_option maxRecDepth 8000 in rfl
  exact ⟨(timestamps_empty_or_full sampleFile sampleSer hok).1 (by decide),
         (timestamps_empty_or_full sampleFile sampleSer hok).2.2⟩

/-- Claim C10: after a successful open, every frame index below the frame
count gives a slice lying entirely inside the mapped bytes, and read_frame
returns a frame of exactly image_frame_size bytes there — the length check
done by open guarantees the slicing stays in range. -/
theorem read_frame_in_bounds (bytes : List Nat) (f : SerFile)
    (hok : openSer bytes = .ok f) (i : Nat) (hi : i < f.header.frame_count) :
    178 + i * f.header.image_frame_size + f.header.image_frame_size ≤ f.mmap.length ∧
    ∃ fr, read_frame f i = .ok fr ∧ fr.length = f.header.image_frame_size := by
  have hb := open_frame_bound hok hi
  refine ⟨hb, byteSlice f.mmap (178 + i * f.header.image_frame_size)
      (178 + i * f.header.image_frame_size + f.header.image_frame_size), ?_, ?_⟩
  · unfold read_frame
    rw [if_pos hi]
    rfl
  · simp only [byteSlice, List.length_take, List.length_drop]
    omega

/-- Claim C10, witness: on the opened sample file, frame 0 lies within the
182 mapped bytes and reads back as a 4-byte frame. -/
theorem read_frame_in_bounds_witness :
    178 + 0 * sampleSer.header.image_frame_size + sampleSer.header.image_frame_size ≤
      sampleSer.mmap.length ∧
    ∃ fr, read_frame sampleSer 0 = .ok fr ∧
      fr.length = sampleSer.header.image_frame_size :=
  read_frame_in_bounds sampleFile sampleSer (by set_option maxRecDepth 8000 in rfl) 0
    (by decide)
